import Mathlib

/-!
Shallow embedding of the ANCOVA analysis module (src/src/ANCOVA.js) of the
DataFrame repository, together with a verification of the specified
behaviour of its components: input validation, dummy encoding, design-matrix
construction, OLS fitting via normal equations, and the partial F test.

Numbers are idealised as rationals. Since the field operations on the
built-in rationals do not reduce inside the Lean kernel, the embedding
routes every arithmetic step through wrappers (qadd, qsub, qmul, qdiv,
qabs, qsum) defined via mkRat and Rat.divInt, which do reduce; each wrapper
is proved equal to the corresponding field operation, so statements can be
phrased with the ordinary operations while concrete runs evaluate by decide.
-/

namespace Ancova

/-- Kernel-computable addition on the rationals. -/
def qadd (a b : ℚ) : ℚ := mkRat (a.num * b.den + b.num * a.den) (a.den * b.den)

/-- Kernel-computable subtraction on the rationals. -/
def qsub (a b : ℚ) : ℚ := mkRat (a.num * b.den - b.num * a.den) (a.den * b.den)

/-- Kernel-computable multiplication on the rationals. -/
def qmul (a b : ℚ) : ℚ := mkRat (a.num * b.num) (a.den * b.den)

/-- Kernel-computable division on the rationals; division by zero gives 0,
matching the Lean convention (the JS source instead produces Infinity or
NaN there, which is noted wherever it matters). -/
def qdiv (a b : ℚ) : ℚ := Rat.divInt (a.num * b.den) (a.den * b.num)

/-- Kernel-computable negation on the rationals. -/
def qneg (a : ℚ) : ℚ := mkRat (-a.num) a.den

/-- Kernel-computable absolute value on the rationals (Math.abs). -/
def qabs (a : ℚ) : ℚ := mkRat a.num.natAbs a.den

/-- Kernel-computable left-fold sum, the translation of Array.reduce with
a numeric accumulator starting at 0. -/
def qsum (l : List ℚ) : ℚ := l.foldl qadd 0

/-- Sum of f over the index range 0..n-1. -/
def qsumTo (n : ℕ) (f : ℕ → ℚ) : ℚ := qsum ((List.range n).map f)

/-- A JS value held in a DataFrame column: a number (idealised as a rational)
or a string. Equality is the strict equality (===) used by the source when
matching group levels, under which a number is never equal to a string. -/
inductive Value where
  | num (q : ℚ)
  | str (s : String)
deriving DecidableEq, Repr, Inhabited

/-- Numeric reading of a stored value, applied when a column is copied into
the design matrix or the outcome vector. Columns reaching that point have
been validated as numeric, so the string arm is never exercised there. -/
def Value.toQ : Value → ℚ
  | .num q => q
  | .str _ => 0

/-- Decimal digit characters of n, with explicit fuel so that the kernel can
reduce the recursion. -/
def natChars : ℕ → ℕ → List Char
  | 0, _ => []
  | fuel + 1, n =>
      if n < 10 then [Nat.digitChar n]
      else natChars fuel (n / 10) ++ [Nat.digitChar (n % 10)]

/-- Decimal representation of a natural number. -/
def natRepr (n : ℕ) : String := ⟨natChars (n + 1) n⟩

/-- Decimal representation of an integer, as JS prints integer-valued
numbers. -/
def intRepr (i : Int) : String :=
  if i < 0 then "-" ++ natRepr i.natAbs else natRepr i.natAbs

/-- The JS ToString conversion applied by the template literal building dummy
column names and by the default sort comparator. It is faithful for strings
and for integer-valued numbers, the values exercised in this development;
for a non-integral rational the JS float formatting is approximated by a
num/den rendering, and theorems that depend on the conversion restrict
themselves to faithfully printable values. -/
def jsString : Value → String
  | .str s => s
  | .num q => if q.den = 1 then intRepr q.num else intRepr q.num ++ "/" ++ natRepr q.den

/-- Values on which jsString agrees with the JS ToString conversion. -/
def Value.printable : Value → Bool
  | .str _ => true
  | .num q => q.den == 1

/-- Code-unit sequence of the printed form of a value, the key compared by
the JS default sort comparator. -/
def jsKey (v : Value) : List ℕ := (jsString v).data.map Char.toNat

/-- Lexicographic strict comparison of code-unit sequences, the order used by
the JS default sort comparator on the printed forms. -/
def natListLt : List ℕ → List ℕ → Bool
  | _, [] => false
  | [], _ :: _ => true
  | a :: as, b :: bs =>
      if a < b then true
      else if b < a then false
      else natListLt as bs

/-- The non-strict sort order on values induced by the JS default comparator:
a precedes b when the printed form of b is not strictly below that of a. -/
def jsLe (a b : Value) : Prop := natListLt (jsKey b) (jsKey a) = false

instance : DecidableRel jsLe := fun a b =>
  inferInstanceAs (Decidable (natListLt (jsKey b) (jsKey a) = false))

/-- Modelled from the spec: the DataFrame class itself (DataFrame.js) is not
part of the sources under verification; per the data-model and
external-interface sections the tabular collaborator offers named columns,
a per-column declared semantic type, and a row count. ANCOVA.js reads
exactly the fields used here: df._data[name], df._types[name], df._length. -/
structure DataFrame where
  _data : List (String × List Value)
  _types : List (String × String)
  _length : ℕ
deriving DecidableEq, Repr, Inhabited

/-- Association lookup modelling JS property access obj[name] on an object
represented as an ordered key-value list: the value at the first matching
key, or none (undefined) when the key is absent. -/
def alookup {b : Type} : List (String × b) → String → Option b
  | [], _ => none
  | (k, v) :: rest, c => if k = c then some v else alookup rest c

/-- Column access df._data[name]; none models the undefined (falsy) result
for a missing column. -/
def DataFrame.col (df : DataFrame) (c : String) : Option (List Value) :=
  alookup df._data c

/-- Column access defaulting to the empty column; used only where a theorem
or a later definition has already ensured presence. -/
def DataFrame.colD (df : DataFrame) (c : String) : List Value :=
  (df.col c).getD []

/-- Declared-type access df._types[name]. -/
def DataFrame.typeOf (df : DataFrame) (c : String) : Option String :=
  alookup df._types c

/-- The errors thrown by ANCOVA.js, one constructor per distinct thrown
message. notDataFrame is the constructor guard; the five validation
constructors are thrown by _validateInputs; singularMatrix is the message
that X^T X is singular or nearly singular, thrown by _fitModel. The spec
names these ValidationError and SingularMatrixError; no code path constructs
the DegreesOfFreedomError or ComparisonError the spec also names. -/
inductive AnError where
  | notDataFrame
  | depVarNotFound (name : String)
  | depVarNotNumeric (name : String)
  | covarNotFound (name : String)
  | covarNotNumeric (name : String)
  | groupVarNotFound (name : String)
  | singularMatrix
deriving DecidableEq, Repr

/-- The injected numeric primitives: the determinant, inverse and the two
distribution CDFs of the jStat collaborator handed to _fitModel and
_partialFTest, together with Math.sqrt. The spec treats them as pure
already-resolved capabilities. -/
structure NumPrims where
  det : List (List ℚ) → ℚ
  inv : List (List ℚ) → List (List ℚ)
  sqrt : ℚ → ℚ
  studenttCdf : ℚ → Int → ℚ
  centralFCdf : ℚ → ℕ → Int → ℚ

/-- Presence and numeric-type check for one covariate, in source order:
missing first, then non-numeric. -/
def checkCovariate (df : DataFrame) (c : String) : Except AnError Unit :=
  if (df.col c).isNone then .error (.covarNotFound c)
  else if df.typeOf c ≠ some "number" then .error (.covarNotNumeric c)
  else .ok ()

/-- The forEach loop over the covariates: the first failing covariate throws
and aborts the rest. -/
def checkCovariates (df : DataFrame) : List String → Except AnError Unit
  | [] => .ok ()
  | c :: cs =>
      match checkCovariate df c with
      | .error e => .error e
      | .ok _ => checkCovariates df cs

/-- Translation of _validateInputs: dependent variable present and numeric,
each covariate present and numeric, group variable present. No check on the
number of group levels, on row counts, or on the group variable type is
performed. -/
def validateInputs (df : DataFrame) (dependentVar : String)
    (covariates : List String) (groupVar : String) : Except AnError Unit :=
  if (df.col dependentVar).isNone then .error (.depVarNotFound dependentVar)
  else if df.typeOf dependentVar ≠ some "number" then .error (.depVarNotNumeric dependentVar)
  else
    match checkCovariates df covariates with
    | .error e => .error e
    | .ok _ =>
        if (df.col groupVar).isNone then .error (.groupVarNotFound groupVar)
        else .ok ()

/-- First-occurrence deduplication, the translation of copying a Set built
from the column back into an array. -/
def jsDedup (l : List Value) : List Value :=
  l.foldl (fun acc v => if v ∈ acc then acc else acc ++ [v]) []

/-- The dummy column name, the template literal groupVar_level. -/
def dummyName (g : String) (lvl : Value) : String := g ++ "_" ++ jsString lvl

/-- The indicator column for one level: 1 where the row strictly equals the
level, else 0 (a Float64Array in the source). -/
def indicatorCol (col : List Value) (lvl : Value) : List Value :=
  col.map (fun v => Value.num (if v = lvl then 1 else 0))

/-- A JS property write on the copied column map: replace in place when the
key exists, else append. Modelled from the spec where DataFrame internals
are concerned: rebuilding a DataFrame from the written map keeps the row
count and records the written Float64Array column as numeric. -/
def setCol (df : DataFrame) (c : String) (colv : List Value) : DataFrame :=
  if (alookup df._data c).isSome then
    { df with
      _data := df._data.map (fun kv => if kv.1 = c then (c, colv) else kv),
      _types := df._types.map (fun kv => if kv.1 = c then (c, "number") else kv) }
  else
    { df with
      _data := df._data ++ [(c, colv)],
      _types := df._types ++ [(c, "number")] }

/-- The forEach loop of _encodeDummies adding one indicator column per
non-reference level to the copied frame. -/
def addDummies (g : String) (src : List Value) (lvls : List Value)
    (acc : DataFrame) : DataFrame :=
  lvls.foldl (fun a lvl => setCol a (dummyName g lvl) (indicatorCol src lvl)) acc

/-- Result of _encodeDummies. -/
structure Encoded where
  encodedData : DataFrame
  levels : List Value
deriving DecidableEq, Repr

/-- Translation of _encodeDummies: levels are the distinct group values
sorted by the JS default comparator (string order of the printed forms);
every level but the first gets an indicator column, written into a copy of
the column map which is wrapped in a new DataFrame. -/
def encodeDummies (df : DataFrame) (groupVar : String) : Encoded :=
  let levels := List.insertionSort jsLe (jsDedup (df.colD groupVar))
  ⟨addDummies groupVar (df.colD groupVar) (levels.drop 1) df, levels⟩

/-- Design-matrix output of _buildDesignMatrix. -/
structure Design where
  X : List (List ℚ)
  y : List ℚ
deriving DecidableEq, Repr

/-- Translation of _buildDesignMatrix: each of the df._length rows starts
with the intercept 1 kept from the fill, followed by the row values of the
predictors in order; y copies the dependent column. -/
def buildDesignMatrix (df : DataFrame) (dependentVar : String)
    (predictors : List String) : Design :=
  { X := (List.range df._length).map (fun i =>
      1 :: predictors.map (fun pr => ((df.colD pr).getD i (Value.num 0)).toQ)),
    y := (df.colD dependentVar).map Value.toQ }

/-- Matrix entry m[i][j] with the JS-undefined corners defaulted to 0; every
faithful use stays in bounds. -/
def mget (m : List (List ℚ)) (i j : ℕ) : ℚ := (m.getD i []).getD j 0

/-- Vector entry v[i]. -/
def vget (v : List ℚ) (i : ℕ) : ℚ := v.getD i 0

/-- The column count p = X[0].length read by _fitModel. -/
def pOf (X : List (List ℚ)) : ℕ := (X.headD []).length

/-- The Gram matrix X^T X accumulated by the triple loop of _fitModel: entry
(j,k) collects the sum over rows i of X[i][j]*X[i][k]. -/
def gram (X : List (List ℚ)) : List (List ℚ) :=
  (List.range (pOf X)).map (fun j =>
    (List.range (pOf X)).map (fun k =>
      qsumTo X.length (fun i => qmul (mget X i j) (mget X i k))))

/-- The singularity tolerance 1e-12 of _fitModel. -/
def tol : ℚ := mkRat 1 (10 ^ 12)

/-- Array.reduce dot product row.reduce((acc, val, idx) => acc + val*v[idx], 0). -/
def dotIdx (row v : List ℚ) : ℚ :=
  qsumTo row.length (fun i => qmul (vget row i) (vget v i))

/-- The record returned by _fitModel. -/
structure FittedModel where
  beta : List ℚ
  se : List ℚ
  tStats : List ℚ
  pValues : List ℚ
  yhat : List ℚ
  residuals : List ℚ
  rss : ℚ
  df : Int
  s2 : ℚ
  XtX_inv : List (List ℚ)
deriving DecidableEq, Repr, Inhabited

/-- The success path of _fitModel after the singularity check: X^T y, beta
through the injected inverse, fitted values, residuals, RSS, df = n - p,
s2 = RSS/df, standard errors sqrt(s2 * XtX_inv[i][i]), t statistics and
two-sided p values. The divisions by df and by se are total here (zero
denominators give 0) where JS produces Infinity or NaN; no theorem relies
on the value produced in those corners except where noted. -/
def fitResult (prims : NumPrims) (X : List (List ℚ)) (y : List ℚ) : FittedModel :=
  let n := X.length
  let p := pOf X
  let XtY := (List.range p).map (fun j => qsumTo n (fun i => qmul (mget X i j) (vget y i)))
  let XtX_inv := prims.inv (gram X)
  let beta := XtX_inv.map (fun row => dotIdx row XtY)
  let yhat := X.map (fun row => dotIdx row beta)
  let residuals := y.mapIdx (fun i v => qsub v (vget yhat i))
  let rss := qsum (residuals.map (fun r => qmul r r))
  let df : Int := (n : Int) - (p : Int)
  let s2 := qdiv rss (df : ℚ)
  let se := XtX_inv.mapIdx (fun i row => prims.sqrt (qmul s2 (vget row i)))
  let tStats := beta.mapIdx (fun i b => qdiv b (vget se i))
  let pValues := tStats.map (fun t => qmul 2 (qsub 1 (prims.studenttCdf (qabs t) df)))
  ⟨beta, se, tStats, pValues, yhat, residuals, rss, df, s2, XtX_inv⟩

/-- Translation of _fitModel: the only throw is the singularity check on the
determinant of the Gram matrix; past it the fit always returns a record. -/
def fitModel (prims : NumPrims) (X : List (List ℚ)) (y : List ℚ) :
    Except AnError FittedModel :=
  if qabs (prims.det (gram X)) < tol then .error .singularMatrix
  else .ok (fitResult prims X y)

/-- Result record of _partialFTest. -/
structure PartialF where
  fStatistic : ℚ
  pValue : ℚ
deriving DecidableEq, Repr, Inhabited

/-- Translation of _partialFTest. The df_reduced argument is accepted and
unused exactly as in the source; no validity check of any argument is
performed and the function cannot fail. The divisions are total here (zero
denominators give 0) where JS produces Infinity or NaN. -/
def partialFTest (prims : NumPrims) (RSS_reduced RSS_full : ℚ)
    (df_reduced df_full : Int) (nParamsAdded : ℕ) : PartialF :=
  let numerator := qdiv (qsub RSS_reduced RSS_full) (nParamsAdded : ℚ)
  let denominator := qdiv RSS_full (df_full : ℚ)
  let fStatistic := qdiv numerator denominator
  { fStatistic := fStatistic,
    pValue := qsub 1 (prims.centralFCdf fStatistic nParamsAdded df_full) }

/-- The composite result of analyze. -/
structure AncovaResult where
  reducedModel : FittedModel
  fullModel : FittedModel
  partialF : PartialF
  levels : List Value
deriving DecidableEq, Repr, Inhabited

/-- Translation of analyze: encode dummies, build and fit the reduced and the
full designs on the encoded frame, then run the partial F test with
q = number of dummy columns = number of levels minus one. -/
def analyze (prims : NumPrims) (df : DataFrame) (dependentVar : String)
    (covariates : List String) (groupVar : String) : Except AnError AncovaResult :=
  let e := encodeDummies df groupVar
  let dummyCols := (e.levels.drop 1).map (dummyName groupVar)
  let reducedDesign := buildDesignMatrix e.encodedData dependentVar covariates
  match fitModel prims reducedDesign.X reducedDesign.y with
  | .error err => .error err
  | .ok reducedModel =>
      let fullDesign := buildDesignMatrix e.encodedData dependentVar (covariates ++ dummyCols)
      match fitModel prims fullDesign.X fullDesign.y with
      | .error err => .error err
      | .ok fullModel =>
          .ok ⟨reducedModel, fullModel,
            partialFTest prims reducedModel.rss fullModel.rss reducedModel.df
              fullModel.df dummyCols.length,
            e.levels⟩

/-- The covariates option may be a single name or an array of names; the
constructor normalises it with Array.isArray. -/
inductive CovArg where
  | one (s : String)
  | many (l : List String)
deriving DecidableEq, Repr

def CovArg.toList : CovArg → List String
  | .one s => [s]
  | .many l => l

/-- The options object of the constructor. -/
structure Options where
  dependentVar : String
  covariates : CovArg
  groupVar : String
deriving DecidableEq, Repr

/-- The validated analysis object built by the constructor. -/
structure AncovaAnalysis where
  df : DataFrame
  dependentVar : String
  covariates : List String
  groupVar : String
deriving DecidableEq, Repr

/-- A constructor data argument: either a DataFrame instance or any other
value, which fails the instanceof check. -/
inductive JSValue where
  | dataFrame (d : DataFrame)
  | other
deriving DecidableEq, Repr

/-- Translation of the AncovaAnalysis constructor: the instanceof guard
throws on any non-DataFrame data before anything else; then the fields are
stored with the covariates normalised, and _validateInputs runs. -/
def mkAncova (data : JSValue) (opts : Options) : Except AnError AncovaAnalysis :=
  match data with
  | .other => .error .notDataFrame
  | .dataFrame d =>
      match validateInputs d opts.dependentVar opts.covariates.toList opts.groupVar with
      | .error e => .error e
      | .ok _ => .ok ⟨d, opts.dependentVar, opts.covariates.toList, opts.groupVar⟩

/-- Construction followed by analyze, the full pipeline a caller runs. -/
def runAncova (prims : NumPrims) (data : JSValue) (opts : Options) :
    Except AnError AncovaResult :=
  match mkAncova data opts with
  | .error e => .error e
  | .ok a => analyze prims a.df a.dependentVar a.covariates a.groupVar

/-- Executable determinant for the square dimensions exercised by the
concrete runs (p up to 3), one admissible implementation of the determinant
primitive the collaborator provides. -/
def detSmall : List (List ℚ) → ℚ
  | [[a]] => a
  | [[a, b], [c, d]] => qsub (qmul a d) (qmul b c)
  | [[a, b, c], [d, e, f], [g, h, i]] =>
      qadd (qsub (qmul a (qsub (qmul e i) (qmul f h)))
                 (qmul b (qsub (qmul d i) (qmul f g))))
           (qmul c (qsub (qmul d h) (qmul e g)))
  | _ => 0

/-- Executable inverse (adjugate over determinant) for dimensions up to 3,
one admissible implementation of the inverse primitive the collaborator
provides. -/
def invSmall : List (List ℚ) → List (List ℚ)
  | [[a]] => [[qdiv 1 a]]
  | [[a, b], [c, d]] =>
      let dt := qsub (qmul a d) (qmul b c)
      [[qdiv d dt, qdiv (qneg b) dt], [qdiv (qneg c) dt, qdiv a dt]]
  | [[a, b, c], [d, e, f], [g, h, i]] =>
      let dt := qadd (qsub (qmul a (qsub (qmul e i) (qmul f h)))
                          (qmul b (qsub (qmul d i) (qmul f g))))
                     (qmul c (qsub (qmul d h) (qmul e g)))
      [[qdiv (qsub (qmul e i) (qmul f h)) dt,
        qdiv (qsub (qmul c h) (qmul b i)) dt,
        qdiv (qsub (qmul b f) (qmul c e)) dt],
       [qdiv (qsub (qmul f g) (qmul d i)) dt,
        qdiv (qsub (qmul a i) (qmul c g)) dt,
        qdiv (qsub (qmul c d) (qmul a f)) dt],
       [qdiv (qsub (qmul d h) (qmul e g)) dt,
        qdiv (qsub (qmul b g) (qmul a h)) dt,
        qdiv (qsub (qmul a e) (qmul b d)) dt]]
  | _ => []

/-- A concrete primitives instance used by the concrete runs: exact
determinant and inverse on the exercised dimensions; sqrt and the two CDFs
are irrelevant to every property proved and are fixed constants. -/
def jstatQ : NumPrims :=
  { det := detSmall, inv := invSmall, sqrt := fun _ => 0,
    studenttCdf := fun _ _ => 0, centralFCdf := fun _ _ _ => 0 }

/-- Primitives whose inverse returns a matrix with a negative diagonal
entry, modelling the numerically degraded collaborator output the spec
worries about in its integrity requirement. -/
def prims7 : NumPrims :=
  { det := detSmall, inv := fun _ => [[-1]], sqrt := fun _ => 0,
    studenttCdf := fun _ _ => 0, centralFCdf := fun _ _ _ => 0 }

/-- Three rows, one covariate, a single distinct group value. -/
def df3 : DataFrame :=
  { _data := [("y", [.num 1, .num 2, .num 3]),
              ("x", [.num 1, .num 2, .num 3]),
              ("g", [.str "A", .str "A", .str "A"])],
    _types := [("y", "number"), ("x", "number"), ("g", "string")],
    _length := 3 }

def opts3 : Options :=
  { dependentVar := "y", covariates := .one "x", groupVar := "g" }

/-- Four rows, one covariate, two group levels. -/
def df4 : DataFrame :=
  { _data := [("y", [.num 1, .num 2, .num 3, .num 5]),
              ("x", [.num 1, .num 2, .num 1, .num 2]),
              ("g", [.str "A", .str "A", .str "B", .str "B"])],
    _types := [("y", "number"), ("x", "number"), ("g", "string")],
    _length := 4 }

def opts4 : Options :=
  { dependentVar := "y", covariates := .many ["x"], groupVar := "g" }

/-- The successful analysis result on df4. -/
def res4 : AncovaResult :=
  match analyze jstatQ df4 "y" ["x"] "g" with
  | .ok r => r
  | .error _ => default

/-- Two rows whose numeric group values 2 and 10 sort as strings. -/
def df5 : DataFrame :=
  { _data := [("g", [.num 2, .num 10])],
    _types := [("g", "number")],
    _length := 2 }

/-- The list-of-rows matrix read as a square Mathlib matrix, used to compare
the injected determinant primitive with the mathematical determinant. -/
def toMatrix (p : ℕ) (m : List (List ℚ)) : Matrix (Fin p) (Fin p) ℚ :=
  Matrix.of (fun i j => mget m i j)

/-- The df field of a fit outcome, when it succeeded. -/
def fittedDf (e : Except AnError FittedModel) : Option Int :=
  match e with
  | .ok m => some m.df
  | .error _ => none

/-- The leading diagonal entry of the returned inverse Gram matrix, when the
fit succeeded. -/
def fittedDiag (e : Except AnError FittedModel) : Option ℚ :=
  match e with
  | .ok m => some (mget m.XtX_inv 0 0)
  | .error _ => none


/-! Bridge lemmas and helper facts, followed by the claim theorems. -/

theorem qadd_eq (a b : ℚ) : qadd a b = a + b := by
  have ha : (a.den : ℚ) ≠ 0 := Nat.cast_ne_zero.mpr a.den_nz
  have hb : (b.den : ℚ) ≠ 0 := Nat.cast_ne_zero.mpr b.den_nz
  rw [qadd, Rat.mkRat_eq_div]
  conv_rhs => rw [← Rat.num_div_den a, ← Rat.num_div_den b]
  push_cast
  field_simp

theorem qsub_eq (a b : ℚ) : qsub a b = a - b := by
  have ha : (a.den : ℚ) ≠ 0 := Nat.cast_ne_zero.mpr a.den_nz
  have hb : (b.den : ℚ) ≠ 0 := Nat.cast_ne_zero.mpr b.den_nz
  rw [qsub, Rat.mkRat_eq_div]
  conv_rhs => rw [← Rat.num_div_den a, ← Rat.num_div_den b]
  push_cast
  field_simp
  ring

theorem qmul_eq (a b : ℚ) : qmul a b = a * b := by
  have ha : (a.den : ℚ) ≠ 0 := Nat.cast_ne_zero.mpr a.den_nz
  have hb : (b.den : ℚ) ≠ 0 := Nat.cast_ne_zero.mpr b.den_nz
  rw [qmul, Rat.mkRat_eq_div]
  conv_rhs => rw [← Rat.num_div_den a, ← Rat.num_div_den b]
  push_cast
  field_simp

theorem qdiv_eq (a b : ℚ) : qdiv a b = a / b := by
  have ha : (a.den : ℚ) ≠ 0 := Nat.cast_ne_zero.mpr a.den_nz
  have hb : (b.den : ℚ) ≠ 0 := Nat.cast_ne_zero.mpr b.den_nz
  rcases eq_or_ne b 0 with rfl | hb0
  · simp [qdiv]
  · have hbn : (b.num : ℚ) ≠ 0 := by
      exact_mod_cast Rat.num_ne_zero.mpr hb0
    rw [qdiv, Rat.divInt_eq_div]
    conv_rhs => rw [← Rat.num_div_den a, ← Rat.num_div_den b]
    push_cast
    field_simp

theorem qneg_eq (a : ℚ) : qneg a = -a := by
  have ha : (a.den : ℚ) ≠ 0 := Nat.cast_ne_zero.mpr a.den_nz
  rw [qneg, Rat.mkRat_eq_div]
  conv_rhs => rw [← Rat.num_div_den a]
  push_cast
  field_simp

theorem qabs_eq (a : ℚ) : qabs a = |a| := by
  rw [qabs, Rat.mkRat_eq_div]
  conv_rhs => rw [← Rat.num_div_den a]
  rw [abs_div]
  congr 1
  · push_cast [Int.cast_natAbs]
    rfl
  · rw [abs_of_nonneg (by positivity)]

theorem foldl_qadd_eq (l : List ℚ) : ∀ a : ℚ, l.foldl qadd a = a + l.sum := by
  induction l with
  | nil => intro a; simp [List.foldl]
  | cons x xs ih =>
      intro a
      simp only [List.foldl_cons, List.sum_cons, ih, qadd_eq]
      ring

theorem qsum_eq (l : List ℚ) : qsum l = l.sum := by
  rw [qsum, foldl_qadd_eq, zero_add]

theorem qsumTo_eq (n : ℕ) (f : ℕ → ℚ) : qsumTo n f = ((List.range n).map f).sum := by
  rw [qsumTo, qsum_eq]

theorem natListLt_asymm :
    ∀ a b : List ℕ, natListLt a b = true → natListLt b a = false := by
  intro a
  induction a with
  | nil =>
      intro b _
      cases b with
      | nil => rfl
      | cons y ys => rfl
  | cons x xs ih =>
      intro b hab
      cases b with
      | nil => simp [natListLt] at hab
      | cons y ys =>
          simp only [natListLt] at hab ⊢
          split_ifs at hab ⊢ with h1 h2 h3 h4
          all_goals first
            | rfl
            | omega
            | exact ih ys hab
            | simp_all

theorem natListLt_coTrans :
    ∀ c a b : List ℕ, natListLt c a = true →
      natListLt c b = true ∨ natListLt b a = true := by
  intro c
  induction c with
  | nil =>
      intro a b hca
      cases a with
      | nil => simp [natListLt] at hca
      | cons z as =>
          cases b with
          | nil => right; rfl
          | cons y bs => left; rfl
  | cons x cs ih =>
      intro a b hca
      cases a with
      | nil => simp [natListLt] at hca
      | cons z as =>
          cases b with
          | nil => right; rfl
          | cons y bs =>
              simp only [natListLt] at hca ⊢
              split_ifs at hca ⊢ with h1 h2 h3 h4 h5 h6 h7 h8 h9
              all_goals try (left; rfl)
              all_goals try (right; rfl)
              all_goals try omega
              all_goals try simp_all
              all_goals exact ih as bs hca

theorem tol_eq : tol = 1 / 10 ^ 12 := by
  rw [tol, Rat.mkRat_eq_div]
  norm_num

theorem range_map_getD {α : Type} (n : ℕ) (f : ℕ → α) (d : α) (j : ℕ) (hj : j < n) :
    ((List.range n).map f).getD j d = f j := by
  rw [List.getD_eq_getElem?_getD, List.getElem?_map, List.getElem?_range hj]
  rfl

theorem gram_entry (X : List (List ℚ)) (j k : ℕ) (hj : j < pOf X) (hk : k < pOf X) :
    mget (gram X) j k = qsumTo X.length (fun i => qmul (mget X i j) (mget X i k)) := by
  show ((gram X).getD j []).getD k 0 = _
  rw [gram, range_map_getD (pOf X) _ _ j hj, range_map_getD (pOf X) _ _ k hk]

theorem fitModel_ok (prims : NumPrims) (X : List (List ℚ)) (y : List ℚ)
    (h : ¬ |prims.det (gram X)| < 1 / 10 ^ 12) :
    fitModel prims X y = .ok (fitResult prims X y) := by
  have h2 : ¬ qabs (prims.det (gram X)) < tol := by
    rw [qabs_eq, tol_eq]
    exact h
  unfold fitModel
  rw [if_neg h2]

/-- Claim C1: the fitter throws the singular-matrix error exactly when the
absolute determinant of the Gram matrix X^T X is below 1e-12, and in
particular always throws it when two columns of the design coincide (then
the Gram matrix has two equal rows, so its determinant is exactly zero).
The hypothesis states that the injected determinant primitive computes the
mathematical determinant of the Gram matrix it is given. -/
theorem fitModel_singularity (prims : NumPrims) (X : List (List ℚ)) (y : List ℚ)
    (hdet : prims.det (gram X) = (toMatrix (pOf X) (gram X)).det) :
    (fitModel prims X y = .error .singularMatrix ↔
      |(toMatrix (pOf X) (gram X)).det| < 1 / 10 ^ 12) ∧
    (∀ j k : ℕ, j < pOf X → k < pOf X → j ≠ k →
      (∀ i, i < X.length → mget X i j = mget X i k) →
      fitModel prims X y = .error .singularMatrix) := by
  have hiff : fitModel prims X y = .error .singularMatrix ↔
      |(toMatrix (pOf X) (gram X)).det| < 1 / 10 ^ 12 := by
    unfold fitModel
    split_ifs with h
    · rw [qabs_eq, hdet, tol_eq] at h
      exact iff_of_true rfl h
    · rw [qabs_eq, hdet, tol_eq] at h
      exact iff_of_false (by simp) h
  refine ⟨hiff, ?_⟩
  intro j k hj hk hjk hcols
  rw [hiff]
  have hrow : (toMatrix (pOf X) (gram X)) ⟨j, hj⟩ = (toMatrix (pOf X) (gram X)) ⟨k, hk⟩ := by
    funext m
    show mget (gram X) j m = mget (gram X) k m
    rw [gram_entry X j m hj m.isLt, gram_entry X k m hk m.isLt]
    unfold qsumTo
    congr 1
    apply List.map_congr_left
    intro i hi
    rw [hcols i (List.mem_range.mp hi)]
  have hne : (⟨j, hj⟩ : Fin (pOf X)) ≠ ⟨k, hk⟩ := Fin.ne_of_val_ne hjk
  have hdet0 : (toMatrix (pOf X) (gram X)).det = 0 :=
    Matrix.det_zero_of_row_eq hne hrow
  rw [hdet0]
  norm_num

/-- Witness for claim C1: a 2 by 2 design whose two columns coincide; the
concrete determinant primitive agrees with the mathematical determinant on
its Gram matrix, and the fit indeed throws the singular-matrix error. -/
theorem fitModel_singularity_witness :
    jstatQ.det (gram [[1, 1], [2, 2]]) =
      (toMatrix (pOf [[1, 1], [2, 2]]) (gram [[1, 1], [2, 2]])).det ∧
    fitModel jstatQ [[1, 1], [2, 2]] [0, 0] = .error .singularMatrix := by
  have hg : gram [[1, 1], [2, 2]] = [[5, 5], [5, 5]] := by decide
  have hdet : jstatQ.det (gram [[1, 1], [2, 2]]) =
      (toMatrix (pOf [[1, 1], [2, 2]]) (gram [[1, 1], [2, 2]])).det := by
    show detSmall (gram [[1, 1], [2, 2]]) = (toMatrix 2 (gram [[1, 1], [2, 2]])).det
    rw [hg, Matrix.det_fin_two]
    have h00 : toMatrix 2 [[(5 : ℚ), 5], [5, 5]] 0 0 = 5 := by decide
    have h01 : toMatrix 2 [[(5 : ℚ), 5], [5, 5]] 0 1 = 5 := by decide
    have h10 : toMatrix 2 [[(5 : ℚ), 5], [5, 5]] 1 0 = 5 := by decide
    have h11 : toMatrix 2 [[(5 : ℚ), 5], [5, 5]] 1 1 = 5 := by decide
    rw [h00, h01, h10, h11]
    have hl : detSmall [[(5 : ℚ), 5], [5, 5]] = 0 := by decide
    rw [hl]
    norm_num
  refine ⟨hdet, ?_⟩
  refine (fitModel_singularity jstatQ [[1, 1], [2, 2]] [0, 0] hdet).2 0 1
    (by decide) (by decide) (by decide) ?_
  intro i hi
  simp only [List.length_cons, List.length_nil] at hi
  interval_cases i <;> decide

/-- Claim C2 counterexample: a 1 by 1 design with a nonsingular Gram matrix
has df = n - p = 0, yet the fitter returns a FittedModel with df = 0 instead
of failing with a degrees-of-freedom error (no such error exists in the
code). -/
theorem fitModel_df_zero_returns_model :
    fittedDf (fitModel jstatQ [[(1 : ℚ)]] [(5 : ℚ)]) = some 0 := by decide

/-- Claim C2 (amended): the fitter performs no degrees-of-freedom check at
all. Whenever the singularity check passes it returns a FittedModel whose
df field is n - p, positive or not; with df = 0 the error variance is a
division by zero (NaN or Infinity in JS), not an error. -/
theorem fitModel_no_df_check (prims : NumPrims) (X : List (List ℚ)) (y : List ℚ)
    (h : ¬ |prims.det (gram X)| < 1 / 10 ^ 12) :
    fitModel prims X y = .ok (fitResult prims X y) ∧
    (fitResult prims X y).df = (X.length : Int) - (pOf X : Int) :=
  ⟨fitModel_ok prims X y h, rfl⟩

/-- Witness for the amended claim C2 at the 1 by 1 design. -/
theorem fitModel_no_df_check_witness :
    ¬ |jstatQ.det (gram [[(1 : ℚ)]])| < 1 / 10 ^ 12 ∧
    (fitModel jstatQ [[(1 : ℚ)]] [(5 : ℚ)] = .ok (fitResult jstatQ [[(1 : ℚ)]] [(5 : ℚ)]) ∧
      (fitResult jstatQ [[(1 : ℚ)]] [(5 : ℚ)]).df =
        (([[(1 : ℚ)]] : List (List ℚ)).length : Int) - (pOf [[(1 : ℚ)]] : Int)) := by
  have h : ¬ |jstatQ.det (gram [[(1 : ℚ)]])| < 1 / 10 ^ 12 := by
    rw [← qabs_eq, ← tol_eq]
    decide
  exact ⟨h, fitModel_no_df_check jstatQ [[(1 : ℚ)]] [(5 : ℚ)] h⟩

/-- Claim C7 counterexample: with the inverse primitive returning a matrix
whose leading diagonal entry is -1 (the numerically degraded collaborator
output the spec worries about; in exact arithmetic an inverted Gram matrix
always has a positive diagonal), the fitter returns a FittedModel carrying
that non-positive diagonal entry instead of reporting any error; the
corresponding standard error sqrt(s2 * (-1)) is NaN in JS and is produced
silently. -/
theorem fitModel_negative_diag_silent :
    fittedDiag (fitModel prims7 [[(1 : ℚ)], [(1 : ℚ)]] [1, 1]) = some (-1) ∧
    ((-1 : ℚ) ≤ 0) := by
  constructor
  · decide
  · norm_num

/-- Claim C7 (amended): the fitter contains no integrity check on the
diagonal of the inverse Gram matrix. Whenever the singularity check passes
it returns a FittedModel whose standard errors are sqrt(s2 * invRow[i])
computed unconditionally over the rows of the injected inverse, whatever
the sign of the diagonal entries. -/
theorem fitModel_no_integrity_check (prims : NumPrims) (X : List (List ℚ)) (y : List ℚ)
    (h : ¬ |prims.det (gram X)| < 1 / 10 ^ 12) :
    fitModel prims X y = .ok (fitResult prims X y) ∧
    (fitResult prims X y).se = (prims.inv (gram X)).mapIdx
      (fun i row => prims.sqrt ((fitResult prims X y).s2 * vget row i)) := by
  refine ⟨fitModel_ok prims X y h, ?_⟩
  simp only [← qmul_eq]
  rfl

/-- Witness for the amended claim C7 at the degraded-inverse primitives. -/
theorem fitModel_no_integrity_check_witness :
    ¬ |prims7.det (gram [[(1 : ℚ)], [(1 : ℚ)]])| < 1 / 10 ^ 12 ∧
    (fitModel prims7 [[(1 : ℚ)], [(1 : ℚ)]] [1, 1] =
        .ok (fitResult prims7 [[(1 : ℚ)], [(1 : ℚ)]] [1, 1]) ∧
      (fitResult prims7 [[(1 : ℚ)], [(1 : ℚ)]] [1, 1]).se =
        (prims7.inv (gram [[(1 : ℚ)], [(1 : ℚ)]])).mapIdx
          (fun i row => prims7.sqrt ((fitResult prims7 [[(1 : ℚ)], [(1 : ℚ)]] [1, 1]).s2 * vget row i))) := by
  have h : ¬ |prims7.det (gram [[(1 : ℚ)], [(1 : ℚ)]])| < 1 / 10 ^ 12 := by
    rw [← qabs_eq, ← tol_eq]
    decide
  exact ⟨h, fitModel_no_integrity_check prims7 [[(1 : ℚ)], [(1 : ℚ)]] [1, 1] h⟩

/-- Claim C8 counterexample: called with nParamsAdded = 0 (an invalid q) the
comparator returns a PartialF record rather than failing; its type has no
error outcome at all, and no ComparisonError exists in the code. The JS run
produces NaN or Infinity entries from the zero division where this exact
embedding produces 0. -/
theorem partialFTest_invalid_q_returns :
    partialFTest jstatQ 5 3 4 2 0 = { fStatistic := 0, pValue := 1 } := by decide

/-- Claim C8 (amended): the comparator validates nothing: on any invalid
q = 0 or df_full non-positive it still returns the record built from the
two ratio formulas (zero divisions giving 0 here, Infinity or NaN in JS),
never an error. -/
theorem partialFTest_no_validation (prims : NumPrims) (rssR rssF : ℚ)
    (dr dfl : Int) (q : ℕ) (h : q = 0 ∨ dfl ≤ 0) :
    partialFTest prims rssR rssF dr dfl q =
      { fStatistic := ((rssR - rssF) / (q : ℚ)) / (rssF / (dfl : ℚ)),
        pValue := 1 - prims.centralFCdf (((rssR - rssF) / (q : ℚ)) / (rssF / (dfl : ℚ))) q dfl } := by
  unfold partialFTest
  simp only [qdiv_eq, qsub_eq]

/-- Witness for the amended claim C8 at q = 0. -/
theorem partialFTest_no_validation_witness :
    partialFTest jstatQ 5 3 4 2 0 =
      { fStatistic := (((5 : ℚ) - 3) / ((0 : ℕ) : ℚ)) / ((3 : ℚ) / ((2 : Int) : ℚ)),
        pValue := 1 - jstatQ.centralFCdf ((((5 : ℚ) - 3) / ((0 : ℕ) : ℚ)) / ((3 : ℚ) / ((2 : Int) : ℚ))) 0 2 } :=
  partialFTest_no_validation jstatQ 5 3 4 2 0 (Or.inl rfl)

theorem checkCovariate_ok_iff (df : DataFrame) (c : String) :
    checkCovariate df c = .ok () ↔
      ((df.col c).isSome ∧ df.typeOf c = some "number") := by
  unfold checkCovariate
  cases hcol : df.col c with
  | none => simp
  | some l =>
      simp only [Option.isNone_some, Bool.false_eq_true, if_false, Option.isSome_some,
        true_and]
      split_ifs with h2
      · constructor
        · intro h
          cases h
        · intro h
          exact absurd h h2
      · rw [not_not] at h2
        exact iff_of_true rfl h2

theorem checkCovariates_ok_iff (df : DataFrame) (covs : List String) :
    checkCovariates df covs = .ok () ↔
      ∀ c ∈ covs, (df.col c).isSome ∧ df.typeOf c = some "number" := by
  induction covs with
  | nil => simp [checkCovariates]
  | cons c cs ih =>
      simp only [checkCovariates, List.mem_cons]
      cases hc : checkCovariate df c with
      | error e =>
          constructor
          · intro h
            cases h
          · intro h
            have hok : checkCovariate df c = .ok () :=
              (checkCovariate_ok_iff df c).mpr (h c (Or.inl rfl))
            rw [hok] at hc
            cases hc
      | ok u =>
          cases u
          have hcc : (df.col c).isSome ∧ df.typeOf c = some "number" :=
            (checkCovariate_ok_iff df c).mp hc
          rw [ih]
          constructor
          · intro h d hd
            rcases hd with rfl | hd
            · exact hcc
            · exact h d hd
          · intro h d hd
            exact h d (Or.inr hd)

/-- Claim C3 (amended): the analysis performs no check on the number of
distinct group levels. Validation succeeds exactly when the dependent
variable is present and numeric, every covariate is present and numeric,
and the group column is present, whatever the number of its distinct
values; with a single distinct value the analysis then proceeds to a result
(see the counterexample) instead of failing. -/
theorem validateInputs_characterisation (df : DataFrame) (dep : String)
    (covs : List String) (g : String) :
    validateInputs df dep covs g = .ok () ↔
      ((df.col dep).isSome ∧ df.typeOf dep = some "number" ∧
       (∀ c ∈ covs, (df.col c).isSome ∧ df.typeOf c = some "number") ∧
       (df.col g).isSome) := by
  unfold validateInputs
  by_cases h1 : (df.col dep).isNone
  · rw [if_pos h1]
    constructor
    · intro h
      cases h
    · intro h
      rw [Option.isNone_iff_eq_none] at h1
      rw [h1] at h
      simpa using h.1
  · rw [if_neg h1]
    by_cases h2 : df.typeOf dep ≠ some "number"
    · rw [if_pos h2]
      constructor
      · intro h
        cases h
      · intro h
        exact absurd h.2.1 h2
    · rw [if_neg h2]
      rw [not_not] at h2
      cases hcc : checkCovariates df covs with
      | error e =>
          constructor
          · intro h
            cases h
          · intro h
            have hok : checkCovariates df covs = .ok () :=
              (checkCovariates_ok_iff df covs).mpr h.2.2.1
            rw [hok] at hcc
            cases hcc
      | ok u =>
          cases u
          by_cases h3 : (df.col g).isNone
          · rw [if_pos h3]
            constructor
            · intro h
              cases h
            · intro h
              rw [Option.isNone_iff_eq_none] at h3
              rw [h3] at h
              simpa using h.2.2.2
          · rw [if_neg h3]
            have hsome1 : (df.col dep).isSome := by
              cases hc : df.col dep
              · rw [hc] at h1
                exact absurd rfl h1
              · simp
            have hsome3 : (df.col g).isSome := by
              cases hc : df.col g
              · rw [hc] at h3
                exact absurd rfl h3
              · simp
            exact iff_of_true rfl
              ⟨hsome1, h2, (checkCovariates_ok_iff df covs).mp hcc, hsome3⟩

/-- Claim C3 counterexample: a frame whose group column holds a single
distinct value sails through validation and the whole analysis returns a
result (with zero dummy columns and a q = 0 partial F test) instead of
failing with any error. -/
theorem singleLevel_no_error :
    (jsDedup (df3.colD "g")).length = 1 ∧
    (runAncova jstatQ (.dataFrame df3) opts3).isOk = true := by decide

/-- Witness for the amended claim C3: the single-level frame passes
validation because only presence and numeric types are inspected. -/
theorem validateInputs_characterisation_witness :
    validateInputs df3 "y" ["x"] "g" = .ok () :=
  (validateInputs_characterisation df3 "y" ["x"] "g").mpr (by decide)

/-- Claim C10: the constructor succeeds exactly on a DataFrame instance that
passes input validation, and on any non-DataFrame data it throws the
instanceof guard error before any analysis object exists. -/
theorem mkAncova_characterisation (data : JSValue) (opts : Options) :
    ((mkAncova data opts).isOk = true ↔
      (∃ d, data = JSValue.dataFrame d ∧
        validateInputs d opts.dependentVar opts.covariates.toList opts.groupVar = .ok ())) ∧
    mkAncova JSValue.other opts = .error .notDataFrame := by
  constructor
  · cases data with
    | other =>
        constructor
        · intro h
          cases h
        · rintro ⟨d, hd, _⟩
          cases hd
    | dataFrame d =>
        simp only [mkAncova]
        cases hv : validateInputs d opts.dependentVar opts.covariates.toList opts.groupVar with
        | error e =>
            constructor
            · intro h
              cases h
            · rintro ⟨d2, hd2, hok⟩
              injection hd2 with h
              subst h
              rw [hok] at hv
              cases hv
        | ok u =>
            cases u
            exact iff_of_true rfl ⟨d, rfl, hv⟩
  · rfl

/-- Witness for claim C10: df4 with its options constructs successfully, and
a non-DataFrame argument is rejected. -/
theorem mkAncova_characterisation_witness :
    (mkAncova (.dataFrame df4) opts4).isOk = true ∧
    mkAncova JSValue.other opts4 = .error .notDataFrame :=
  ⟨(mkAncova_characterisation (.dataFrame df4) opts4).1.mpr ⟨df4, rfl, rfl⟩,
    (mkAncova_characterisation JSValue.other opts4).2⟩

/-- Claim C4: every successful analysis carries the partial F statistic
F = ((RSS_reduced - RSS_full)/q) / (RSS_full/df_full) and the p value
1 - CDF_F(F; q, df_full) computed through the injected F distribution, with
q the number of non-reference levels, that is the number of levels minus
one. -/
theorem analyze_partialF_formula (prims : NumPrims) (df : DataFrame)
    (dep : String) (covs : List String) (g : String) (r : AncovaResult)
    (h : analyze prims df dep covs g = .ok r) :
    r.partialF.fStatistic =
      ((r.reducedModel.rss - r.fullModel.rss) / ((r.levels.length - 1 : ℕ) : ℚ)) /
        (r.fullModel.rss / (r.fullModel.df : ℚ)) ∧
    r.partialF.pValue =
      1 - prims.centralFCdf r.partialF.fStatistic (r.levels.length - 1) r.fullModel.df := by
  simp only [analyze] at h
  split at h
  · exact Except.noConfusion h
  · rename_i reducedModel heq1
    split at h
    · exact Except.noConfusion h
    · rename_i fullModel heq2
      injection h with h2
      subst h2
      constructor <;>
        simp only [partialFTest, qdiv_eq, qsub_eq, List.length_map, List.length_drop]

/-- Witness for claim C4 at the concrete two-level frame df4. -/
theorem analyze_partialF_formula_witness :
    res4.partialF.fStatistic =
      ((res4.reducedModel.rss - res4.fullModel.rss) / ((res4.levels.length - 1 : ℕ) : ℚ)) /
        (res4.fullModel.rss / (res4.fullModel.df : ℚ)) ∧
    res4.partialF.pValue =
      1 - jstatQ.centralFCdf res4.partialF.fStatistic (res4.levels.length - 1) res4.fullModel.df :=
  analyze_partialF_formula jstatQ df4 "y" ["x"] "g" res4 rfl

theorem map_getD_of_lt {α β : Type} (l : List α) (f : α → β) (d : β) (dd : α)
    (i : ℕ) (hi : i < l.length) :
    (l.map f).getD i d = f (l.getD i dd) := by
  rw [List.getD_eq_getElem?_getD, List.getElem?_map, List.getD_eq_getElem?_getD]
  cases hx : l[i]? with
  | none =>
      rw [List.getElem?_eq_none_iff] at hx
      omega
  | some a => simp

/-- Claim C6: the design-matrix builder returns an n by (k+1) matrix whose
column 0 is constantly 1 and whose column j+1 holds, row by row and in the
given order, the values of predictor j, together with the outcome vector of
length n; row order is the source row order (entry i comes from source
row i). -/
theorem buildDesignMatrix_spec (df : DataFrame) (dep : String) (preds : List String)
    (hdep : (df.colD dep).length = df._length)
    (hpreds : ∀ c ∈ preds, (df.colD c).length = df._length) :
    ((buildDesignMatrix df dep preds).X.length = df._length) ∧
    (∀ i < df._length, ((buildDesignMatrix df dep preds).X.getD i []).length = preds.length + 1) ∧
    (∀ i < df._length, mget (buildDesignMatrix df dep preds).X i 0 = 1) ∧
    (∀ i < df._length, ∀ j < preds.length,
      mget (buildDesignMatrix df dep preds).X i (j + 1) =
        ((df.colD (preds.getD j "")).getD i (Value.num 0)).toQ) ∧
    ((buildDesignMatrix df dep preds).y.length = df._length) ∧
    (∀ i < df._length,
      vget (buildDesignMatrix df dep preds).y i = ((df.colD dep).getD i (Value.num 0)).toQ) := by
  have hrow : ∀ i < df._length, (buildDesignMatrix df dep preds).X.getD i [] =
      1 :: preds.map (fun pr => ((df.colD pr).getD i (Value.num 0)).toQ) := by
    intro i hi
    show ((List.range df._length).map _).getD i [] = _
    rw [range_map_getD df._length _ _ i hi]
  refine ⟨?_, ?_, ?_, ?_, ?_, ?_⟩
  · show ((List.range df._length).map _).length = df._length
    rw [List.length_map, List.length_range]
  · intro i hi
    rw [hrow i hi]
    simp
  · intro i hi
    show ((buildDesignMatrix df dep preds).X.getD i []).getD 0 0 = 1
    rw [hrow i hi]
    rfl
  · intro i hi j hj
    show ((buildDesignMatrix df dep preds).X.getD i []).getD (j + 1) 0 =
      ((df.colD (preds.getD j "")).getD i (Value.num 0)).toQ
    rw [hrow i hi]
    show (preds.map (fun pr => ((df.colD pr).getD i (Value.num 0)).toQ)).getD j 0 = _
    rw [map_getD_of_lt preds _ 0 "" j hj]
  · show ((df.colD dep).map Value.toQ).length = df._length
    rw [List.length_map, hdep]
  · intro i hi
    show ((df.colD dep).map Value.toQ).getD i 0 = _
    rw [map_getD_of_lt (df.colD dep) Value.toQ 0 (Value.num 0) i (by omega)]

/-- Witness for claim C6 at df4 with its single covariate. -/
theorem buildDesignMatrix_spec_witness :
    ((buildDesignMatrix df4 "y" ["x"]).X.length = df4._length) ∧
    (∀ i < df4._length, ((buildDesignMatrix df4 "y" ["x"]).X.getD i []).length = ["x"].length + 1) ∧
    (∀ i < df4._length, mget (buildDesignMatrix df4 "y" ["x"]).X i 0 = 1) ∧
    (∀ i < df4._length, ∀ j < ["x"].length,
      mget (buildDesignMatrix df4 "y" ["x"]).X i (j + 1) =
        ((df4.colD (["x"].getD j "")).getD i (Value.num 0)).toQ) ∧
    ((buildDesignMatrix df4 "y" ["x"]).y.length = df4._length) ∧
    (∀ i < df4._length,
      vget (buildDesignMatrix df4 "y" ["x"]).y i = ((df4.colD "y").getD i (Value.num 0)).toQ) :=
  buildDesignMatrix_spec df4 "y" ["x"] (by decide) (by decide)

theorem alookup_map_replace_same (l : List (String × List Value)) (c : String)
    (v : List Value) (h : (alookup l c).isSome) :
    alookup (l.map (fun kv => if kv.1 = c then (c, v) else kv)) c = some v := by
  induction l with
  | nil => simp [alookup] at h
  | cons kv rest ih =>
      obtain ⟨k, b⟩ := kv
      by_cases hc : k = c
      · subst hc
        show alookup ((if k = k then (k, v) else (k, b)) :: _) k = some v
        rw [if_pos rfl]
        show (if k = k then some v else _) = some v
        rw [if_pos rfl]
      · show alookup ((if k = c then (c, v) else (k, b)) :: _) c = some v
        rw [if_neg hc]
        show (if k = c then some b else alookup _ c) = some v
        rw [if_neg hc]
        have h2 : (alookup rest c).isSome := by
          have : alookup ((k, b) :: rest) c = alookup rest c := by
            show (if k = c then some b else alookup rest c) = _
            rw [if_neg hc]
          rw [this] at h
          exact h
        exact ih h2

theorem alookup_map_replace_other (l : List (String × List Value)) (c c2 : String)
    (v : List Value) (h : c ≠ c2) :
    alookup (l.map (fun kv => if kv.1 = c then (c, v) else kv)) c2 = alookup l c2 := by
  induction l with
  | nil => rfl
  | cons kv rest ih =>
      obtain ⟨k, b⟩ := kv
      by_cases hc : k = c
      · subst hc
        show alookup ((if k = k then (k, v) else (k, b)) :: _) c2 = _
        rw [if_pos rfl]
        show (if k = c2 then some v else _) = if k = c2 then some b else _
        rw [if_neg h, if_neg h]
        exact ih
      · show alookup ((if k = c then (c, v) else (k, b)) :: _) c2 = _
        rw [if_neg hc]
        show (if k = c2 then some b else _) = if k = c2 then some b else _
        by_cases hk2 : k = c2
        · rw [if_pos hk2, if_pos hk2]
        · rw [if_neg hk2, if_neg hk2]
          exact ih

theorem alookup_append_single_of_none (l : List (String × List Value)) (c : String)
    (v : List Value) (h : alookup l c = none) :
    alookup (l ++ [(c, v)]) c = some v := by
  induction l with
  | nil =>
      show (if c = c then some v else _) = some v
      rw [if_pos rfl]
  | cons kv rest ih =>
      obtain ⟨k, b⟩ := kv
      show (if k = c then some b else alookup (rest ++ [(c, v)]) c) = some v
      have hh : (if k = c then some b else alookup rest c) = none := h
      by_cases hc : k = c
      · rw [if_pos hc] at hh
        cases hh
      · rw [if_neg hc] at hh
        rw [if_neg hc]
        exact ih hh

theorem alookup_append_single_other (l : List (String × List Value)) (c c2 : String)
    (v : List Value) (h : c ≠ c2) :
    alookup (l ++ [(c, v)]) c2 = alookup l c2 := by
  induction l with
  | nil =>
      show (if c = c2 then some v else none) = none
      rw [if_neg h]
  | cons kv rest ih =>
      obtain ⟨k, b⟩ := kv
      show (if k = c2 then some b else alookup (rest ++ [(c, v)]) c2) =
        if k = c2 then some b else alookup rest c2
      by_cases hk : k = c2
      · rw [if_pos hk, if_pos hk]
      · rw [if_neg hk, if_neg hk]
        exact ih

theorem setCol_col_same (df : DataFrame) (c : String) (v : List Value) :
    (setCol df c v).col c = some v := by
  unfold setCol DataFrame.col
  split_ifs with h
  · exact alookup_map_replace_same _ _ _ h
  · apply alookup_append_single_of_none
    exact Option.not_isSome_iff_eq_none.mp (fun hs => h hs)

theorem setCol_col_other (df : DataFrame) (c c2 : String) (v : List Value)
    (h : c ≠ c2) : (setCol df c v).col c2 = df.col c2 := by
  unfold setCol DataFrame.col
  split_ifs with hs
  · exact alookup_map_replace_other _ _ _ _ h
  · exact alookup_append_single_other _ _ _ _ h

theorem setCol_length (df : DataFrame) (c : String) (v : List Value) :
    (setCol df c v)._length = df._length := by
  unfold setCol
  split_ifs <;> rfl

theorem addDummies_col_other (g : String) (src : List Value) :
    ∀ (lvls : List Value) (acc : DataFrame) (c : String),
    (∀ lvl ∈ lvls, c ≠ dummyName g lvl) →
    (addDummies g src lvls acc).col c = acc.col c := by
  intro lvls
  induction lvls with
  | nil =>
      intro acc c _
      rfl
  | cons lvl rest ih =>
      intro acc c h
      show (addDummies g src rest (setCol acc (dummyName g lvl) (indicatorCol src lvl))).col c =
        acc.col c
      rw [ih _ _ (fun l hl => h l (List.mem_cons_of_mem _ hl))]
      exact setCol_col_other _ _ _ _
        (fun he => h lvl (List.mem_cons_self _ _) he.symm)

theorem addDummies_length (g : String) (src : List Value) :
    ∀ (lvls : List Value) (acc : DataFrame),
    (addDummies g src lvls acc)._length = acc._length := by
  intro lvls
  induction lvls with
  | nil =>
      intro acc
      rfl
  | cons lvl rest ih =>
      intro acc
      show (addDummies g src rest (setCol acc (dummyName g lvl) (indicatorCol src lvl)))._length =
        acc._length
      rw [ih, setCol_length]

theorem addDummies_col_mem (g : String) (src : List Value) :
    ∀ (lvls : List Value) (acc : DataFrame) (lvl : Value),
    lvl ∈ lvls → (lvls.map (dummyName g)).Nodup →
    (addDummies g src lvls acc).col (dummyName g lvl) = some (indicatorCol src lvl) := by
  intro lvls
  induction lvls with
  | nil =>
      intro acc lvl hmem _
      cases hmem
  | cons l0 rest ih =>
      intro acc lvl hmem hnd
      rcases List.mem_cons.mp hmem with rfl | hmem2
      · show (addDummies g src rest (setCol acc (dummyName g lvl) (indicatorCol src lvl))).col
            (dummyName g lvl) = _
        rw [addDummies_col_other g src rest _ _ ?hno]
        · exact setCol_col_same _ _ _
        case hno =>
          intro l2 hl2 heq
          have hhead : dummyName g lvl ∉ rest.map (dummyName g) :=
            (List.nodup_cons.mp (by simpa using hnd)).1
          exact hhead (heq ▸ List.mem_map_of_mem (dummyName g) hl2)
      · exact ih _ _ hmem2 (List.nodup_cons.mp (by simpa using hnd)).2

theorem mem_foldl_dedup (l : List Value) :
    ∀ (acc : List Value) (x : Value),
    (x ∈ l.foldl (fun acc v => if v ∈ acc then acc else acc ++ [v]) acc ↔ x ∈ acc ∨ x ∈ l) := by
  induction l with
  | nil =>
      intro acc x
      simp
  | cons a as ih =>
      intro acc x
      show x ∈ as.foldl _ (if a ∈ acc then acc else acc ++ [a]) ↔ _
      rw [ih]
      by_cases ha : a ∈ acc
      · rw [if_pos ha]
        simp only [List.mem_cons]
        constructor
        · rintro (h | h)
          · exact Or.inl h
          · exact Or.inr (Or.inr h)
        · rintro (h | rfl | h)
          · exact Or.inl h
          · exact Or.inl ha
          · exact Or.inr h
      · rw [if_neg ha]
        simp only [List.mem_append, List.mem_singleton, List.mem_cons]
        tauto

theorem nodup_foldl_dedup (l : List Value) :
    ∀ acc : List Value, acc.Nodup →
    (l.foldl (fun acc v => if v ∈ acc then acc else acc ++ [v]) acc).Nodup := by
  induction l with
  | nil =>
      intro acc h
      exact h
  | cons a as ih =>
      intro acc h
      show (as.foldl _ (if a ∈ acc then acc else acc ++ [a])).Nodup
      by_cases ha : a ∈ acc
      · rw [if_pos ha]
        exact ih acc h
      · rw [if_neg ha]
        refine ih _ ?_
        simp [List.nodup_append, h, ha]

theorem mem_jsDedup (l : List Value) (x : Value) : x ∈ jsDedup l ↔ x ∈ l := by
  rw [jsDedup, mem_foldl_dedup]
  simp

theorem jsDedup_nodup (l : List Value) : (jsDedup l).Nodup :=
  nodup_foldl_dedup l [] List.nodup_nil

/-- Claim C5 (amended): the encoder returns the distinct group values sorted
ascending by the JS default comparator, which compares the string forms of
the values (so for string-valued groups the natural order, but for numeric
groups the string order rather than numeric order); the reference level is
the first in that order, and every non-reference level receives a length-n
indicator column that is 1 exactly on the rows strictly equal to it. The
hypotheses scope the statement to faithfully printable values, to level
sets whose printed dummy names do not collide (a collision makes JS
overwrite one dummy column with another), and to a group column of the
declared frame length. -/
theorem encodeDummies_spec (df : DataFrame) (g : String)
    (hprint : ∀ v ∈ df.colD g, Value.printable v = true)
    (hinj : ∀ v ∈ df.colD g, ∀ w ∈ df.colD g, dummyName g v = dummyName g w → v = w)
    (hlen : (df.colD g).length = df._length) :
    List.Pairwise jsLe (encodeDummies df g).levels ∧
    (encodeDummies df g).levels.Nodup ∧
    (∀ v, v ∈ (encodeDummies df g).levels ↔ v ∈ df.colD g) ∧
    (∀ lvl ∈ (encodeDummies df g).levels.drop 1,
      (encodeDummies df g).encodedData.col (dummyName g lvl) =
        some (indicatorCol (df.colD g) lvl) ∧
      (indicatorCol (df.colD g) lvl).length = df._length) := by
  haveI htot : IsTotal Value jsLe := by
    constructor
    intro a b
    cases hb : natListLt (jsKey b) (jsKey a) with
    | false => exact Or.inl hb
    | true => exact Or.inr (natListLt_asymm _ _ hb)
  haveI htrans : IsTrans Value jsLe := by
    constructor
    intro a b c hab hbc
    unfold jsLe at hab hbc ⊢
    cases hca : natListLt (jsKey c) (jsKey a) with
    | false => rfl
    | true =>
        rcases natListLt_coTrans _ _ (jsKey b) hca with h | h
        · rw [hbc] at h
          exact Bool.noConfusion h
        · rw [hab] at h
          exact Bool.noConfusion h
  have hperm : (encodeDummies df g).levels.Perm (jsDedup (df.colD g)) :=
    List.perm_insertionSort jsLe (jsDedup (df.colD g))
  have hnodup : (encodeDummies df g).levels.Nodup :=
    hperm.nodup_iff.mpr (jsDedup_nodup _)
  have hmemlev : ∀ v, v ∈ (encodeDummies df g).levels ↔ v ∈ df.colD g := by
    intro v
    rw [hperm.mem_iff, mem_jsDedup]
  refine ⟨List.sorted_insertionSort jsLe _, hnodup, hmemlev, ?_⟩
  intro lvl hlvl
  have hdropnd : ((encodeDummies df g).levels.drop 1).Nodup :=
    hnodup.sublist (List.drop_sublist 1 _)
  have hnames : (((encodeDummies df g).levels.drop 1).map (dummyName g)).Nodup := by
    refine List.Nodup.map_on ?_ hdropnd
    intro x hx y hy hxy
    exact hinj x ((hmemlev x).mp (List.mem_of_mem_drop hx))
      y ((hmemlev y).mp (List.mem_of_mem_drop hy)) hxy
  constructor
  · exact addDummies_col_mem g (df.colD g) _ df lvl hlvl hnames
  · show (List.map _ (df.colD g)).length = df._length
    rw [List.length_map, hlen]

/-- Claim C5 counterexample: the numeric group values 2 and 10 are sorted by
the JS default comparator on their string forms, where "10" precedes "2";
the encoder therefore returns levels [10, 2] (reference level 10), not the
numerically ascending [2, 10] the claim requires. -/
theorem encode_levels_string_order :
    (encodeDummies df5 "g").levels = [Value.num 10, Value.num 2] ∧
    (encodeDummies df5 "g").levels ≠ [Value.num 2, Value.num 10] := by decide

/-- Witness for the amended claim C5 at the string-valued two-level frame
df4: levels [A, B] sorted, nodup, spanning the column, with the g_B
indicator column [0,0,1,1] of length 4. -/
theorem encodeDummies_spec_witness :
    List.Pairwise jsLe (encodeDummies df4 "g").levels ∧
    (encodeDummies df4 "g").levels.Nodup ∧
    (∀ v, v ∈ (encodeDummies df4 "g").levels ↔ v ∈ df4.colD "g") ∧
    (∀ lvl ∈ (encodeDummies df4 "g").levels.drop 1,
      (encodeDummies df4 "g").encodedData.col (dummyName "g" lvl) =
        some (indicatorCol (df4.colD "g") lvl) ∧
      (indicatorCol (df4.colD "g") lvl).length = df4._length) :=
  encodeDummies_spec df4 "g" (by decide) (by decide) (by decide)

/-- Claim C9: the analysis never changes the source frame. In this pure
embedding the source value is untouched by construction (the code performs
no write on df: the encoder copies the column map before adding dummies);
the theorem exhibits the copy discipline: every column of the encoded frame
other than the added dummy columns is the unchanged source column, and the
row count is preserved, so the dummy columns live only in the fresh copy
handed to the design builder. -/
theorem encodeDummies_source_preserved (df : DataFrame) (g : String) (c : String)
    (hc : ∀ lvl ∈ (encodeDummies df g).levels.drop 1, c ≠ dummyName g lvl) :
    (encodeDummies df g).encodedData.col c = df.col c ∧
    (encodeDummies df g).encodedData._length = df._length :=
  ⟨addDummies_col_other g (df.colD g) _ df c hc,
    addDummies_length g (df.colD g) _ df⟩

/-- Witness for claim C9: the source column x of df4 is present unchanged in
the encoded frame. -/
theorem encodeDummies_source_preserved_witness :
    (encodeDummies df4 "g").encodedData.col "x" = df4.col "x" ∧
    (encodeDummies df4 "g").encodedData._length = df4._length :=
  encodeDummies_source_preserved df4 "g" "x" (by decide)

end Ancova
